import Mathlib

/-!
Verification development for the dividend-investment simulator (`app.py`).

The simulator core consists of two month-by-month recurrences
(`run_investment_simulation`, `run_savings_simulation`), the annual-to-monthly
rate conversion, and the present-value adjustment performed on the merged
result table.  All numeric quantities are modelled as real numbers; Python's
`range(1, total_months + 1)` loop is modelled by a fold over
`List.range' 1 totalMonths`, and the per-month mutable state is made explicit
as a state record.
-/

noncomputable section

/-- `SimulationInputs` from `app.py` (field order as in the dataclass).
`investment_years` is an integer (possibly nonpositive); monetary amounts and
rates are reals. -/
structure SimulationInputs where
  monthly_investment_krw : ℝ
  investment_years : ℤ
  seed_money_krw : ℝ
  annual_inflation_rate : ℝ
  annual_price_growth_rate : ℝ
  annual_dividend_yield : ℝ
  reinvest_dividends : Bool
  annual_expense_ratio : ℝ
  dividend_tax_rate : ℝ
  capital_gains_tax_rate : ℝ
  capital_gains_deduction_krw : ℝ
  exchange_rate : ℝ
  annual_exchange_rate_change : ℝ
  savings_interest_rate : ℝ
  savings_tax_rate : ℝ

/-- The compound-inversion annual-to-monthly rate conversion used in
`run_investment_simulation` (lines 97-100):
`(1 + r/100) ** (1/12) - 1`. -/
def monthlyRate (r : ℝ) : ℝ := (1 + r / 100) ^ ((1 : ℝ) / 12) - 1

/-- The monthly rate used in `run_savings_simulation` (line 164):
`savings_interest_rate / 100 / MONTHS_IN_YEAR` (simple division). -/
def savingsMonthlyRate (r : ℝ) : ℝ := r / 100 / 12

/-- `total_months = inputs.investment_years * MONTHS_IN_YEAR`; as loop length
(`range(1, total_months + 1)`) a nonpositive value yields zero iterations. -/
def totalMonths (inputs : SimulationInputs) : ℕ :=
  (inputs.investment_years * 12).toNat

/-- The mutable state carried across months of `run_investment_simulation`. -/
@[ext] structure InvState where
  asset_usd : ℝ
  principal_usd : ℝ
  cost_basis_usd : ℝ
  cumulative_dividends_usd : ℝ
  current_exchange_rate : ℝ

/-- One row appended by `run_investment_simulation` (lines 148-156):
`연차`, `총 투자 원금(원)`, `평가 금액(세전)`, `최종 평가 금액(원)`,
`자본 이득(최종연도 세후)`, `누적 배당금(원)`, `최종 연간 배당금(세후)`. -/
@[ext] structure InvRecord where
  year : ℕ
  principal_krw : ℝ
  pre_tax_asset_krw : ℝ
  asset_krw : ℝ
  capital_gains_krw : ℝ
  cumulative_dividend_krw : ℝ
  final_annual_dividend_krw : ℝ

/-- Initial investment state (lines 94-106): all USD accumulators start at
`seed_money_krw / exchange_rate`, dividends at zero, the drifting exchange
rate at `exchange_rate`. -/
def invInitState (inputs : SimulationInputs) : InvState :=
  ⟨inputs.seed_money_krw / inputs.exchange_rate,
   inputs.seed_money_krw / inputs.exchange_rate,
   inputs.seed_money_krw / inputs.exchange_rate,
   0,
   inputs.exchange_rate⟩

/-- The per-month body of `run_investment_simulation` (lines 110-125), in the
source's statement order: growth, expense drag, dividend and dividend tax,
optional reinvestment, contribution, exchange-rate drift. -/
def invMonthStep (inputs : SimulationInputs) (s : InvState) : InvState :=
  let monthly_growth_rate := monthlyRate inputs.annual_price_growth_rate
  let monthly_dividend_yield := monthlyRate inputs.annual_dividend_yield
  let monthly_expense_ratio := monthlyRate inputs.annual_expense_ratio
  let monthly_exchange_rate_change := monthlyRate inputs.annual_exchange_rate_change
  let monthly_investment_usd := inputs.monthly_investment_krw / inputs.exchange_rate
  let a1 := s.asset_usd * (1 + monthly_growth_rate)
  let a2 := a1 * (1 - monthly_expense_ratio)
  let monthly_dividend := a2 * monthly_dividend_yield
  let dividend_after_tax := monthly_dividend * (1 - inputs.dividend_tax_rate / 100)
  let cum := s.cumulative_dividends_usd + dividend_after_tax
  let a3 := if inputs.reinvest_dividends then a2 + dividend_after_tax else a2
  let cb3 := if inputs.reinvest_dividends then s.cost_basis_usd + dividend_after_tax
             else s.cost_basis_usd
  ⟨a3 + monthly_investment_usd,
   s.principal_usd + monthly_investment_usd,
   cb3 + monthly_investment_usd,
   cum,
   s.current_exchange_rate * (1 + monthly_exchange_rate_change)⟩

/-- The record emitted at a year boundary (lines 127-156).  At the final month
the capital-gains tax (computed in KRW on the allowance-clamped gain) is
deducted from the reported asset and gain, and the estimated final annual
dividend is filled in; otherwise those fields are the raw values and zero. -/
def mkInvRecord (inputs : SimulationInputs) (month : ℕ) (s : InvState) : InvRecord :=
  let pre_tax_asset_krw := s.asset_usd * s.current_exchange_rate
  let capital_gains_usd := s.asset_usd - s.cost_basis_usd
  if month = totalMonths inputs then
    let capital_gains_krw_val := capital_gains_usd * s.current_exchange_rate
    let taxable_gains_krw :=
      max 0 (capital_gains_krw_val - inputs.capital_gains_deduction_krw)
    let capital_gains_tax_krw := taxable_gains_krw * (inputs.capital_gains_tax_rate / 100)
    let capital_gains_tax_usd := capital_gains_tax_krw / s.current_exchange_rate
    let final_asset_usd := s.asset_usd - capital_gains_tax_usd
    let final_gains_usd := capital_gains_usd - capital_gains_tax_usd
    let annual_dividend_krw := pre_tax_asset_krw * (inputs.annual_dividend_yield / 100)
    ⟨month / 12,
     s.principal_usd * s.current_exchange_rate,
     pre_tax_asset_krw,
     final_asset_usd * s.current_exchange_rate,
     final_gains_usd * s.current_exchange_rate,
     s.cumulative_dividends_usd * s.current_exchange_rate,
     annual_dividend_krw * (1 - inputs.dividend_tax_rate / 100)⟩
  else
    ⟨month / 12,
     s.principal_usd * s.current_exchange_rate,
     pre_tax_asset_krw,
     s.asset_usd * s.current_exchange_rate,
     capital_gains_usd * s.current_exchange_rate,
     s.cumulative_dividends_usd * s.current_exchange_rate,
     0⟩

/-- Investment state after `m` completed months. -/
def invStateAfter (inputs : SimulationInputs) : ℕ → InvState
  | 0 => invInitState inputs
  | m + 1 => invMonthStep inputs (invStateAfter inputs m)

/-- Records emitted during the first `m` months (one per year boundary). -/
def invRecordsUpTo (inputs : SimulationInputs) : ℕ → List InvRecord
  | 0 => []
  | m + 1 =>
      invRecordsUpTo inputs m ++
        (if (m + 1) % 12 = 0 then
          [mkInvRecord inputs (m + 1) (invStateAfter inputs (m + 1))]
        else [])

/-- `run_investment_simulation` (lines 91-158): fold the per-month body over
months `1 .. total_months`, appending a record at each year boundary, and
return the list of records. -/
def run_investment_simulation (inputs : SimulationInputs) : List InvRecord :=
  ((List.range' 1 (totalMonths inputs)).foldl
    (fun acc month =>
      let s := invMonthStep inputs acc.1
      if month % 12 = 0 then (s, acc.2 ++ [mkInvRecord inputs month s])
      else (s, acc.2))
    (invInitState inputs, ([] : List InvRecord))).2

/-- The mutable state of `run_savings_simulation`: `asset` and
`interest_for_year`. -/
@[ext] structure SavState where
  asset : ℝ
  interest_for_year : ℝ

/-- One row appended by `run_savings_simulation`: `연차`,
`예/적금 평가 금액(원)`. -/
@[ext] structure SavRecord where
  year : ℕ
  savings_asset_krw : ℝ

/-- The per-month body of `run_savings_simulation` (lines 171-185): accrue
interest on the balance, add the contribution, and at a year boundary deduct
tax on the (clamped) year-to-date interest and reset it. -/
def savMonthUpdate (inputs : SimulationInputs) (month : ℕ) (s : SavState) : SavState :=
  let monthly_rate := savingsMonthlyRate inputs.savings_interest_rate
  let tax_rate := inputs.savings_tax_rate / 100
  let interest := s.asset * monthly_rate
  let ytd := s.interest_for_year + interest
  let a := s.asset + interest + inputs.monthly_investment_krw
  if month % 12 = 0 then
    let taxable_interest := max 0 ytd
    let tax := taxable_interest * tax_rate
    ⟨a - tax, 0⟩
  else
    ⟨a, ytd⟩

/-- Savings state after `m` completed months (initially the seed money and no
accrued interest). -/
def savStateAfter (inputs : SimulationInputs) : ℕ → SavState
  | 0 => ⟨inputs.seed_money_krw, 0⟩
  | m + 1 => savMonthUpdate inputs (m + 1) (savStateAfter inputs m)

/-- Savings records emitted during the first `m` months. -/
def savRecordsUpTo (inputs : SimulationInputs) : ℕ → List SavRecord
  | 0 => []
  | m + 1 =>
      savRecordsUpTo inputs m ++
        (if (m + 1) % 12 = 0 then
          [⟨(m + 1) / 12, (savStateAfter inputs (m + 1)).asset⟩]
        else [])

/-- `run_savings_simulation` (lines 161-187). -/
def run_savings_simulation (inputs : SimulationInputs) : List SavRecord :=
  ((List.range' 1 (totalMonths inputs)).foldl
    (fun acc month =>
      let s := savMonthUpdate inputs month acc.1
      if month % 12 = 0 then (s, acc.2 ++ [⟨month / 12, s.asset⟩])
      else (s, acc.2))
    ((⟨inputs.seed_money_krw, 0⟩ : SavState), ([] : List SavRecord))).2

/-- A row of the merged result table (investment columns joined with the
savings column by year). -/
@[ext] structure MergedRow where
  year : ℕ
  principal_krw : ℝ
  pre_tax_asset_krw : ℝ
  asset_krw : ℝ
  capital_gains_krw : ℝ
  cumulative_dividend_krw : ℝ
  final_annual_dividend_krw : ℝ
  savings_asset_krw : ℝ

/-- A merged row extended with the two present-value columns appended by
`display_charts_and_data`. -/
@[ext] structure DisplayRow extends MergedRow where
  asset_pv_krw : ℝ
  savings_asset_pv_krw : ℝ

/-- `inflation_divisor = (1 + annual_inflation_rate / 100) ** year`
(line 223). -/
def inflationDivisor (annual_inflation_rate : ℝ) (year : ℕ) : ℝ :=
  (1 + annual_inflation_rate / 100) ^ year

/-- The present-value adjustment of `display_charts_and_data` (lines 222-225):
the nominal columns are copied unchanged and two new deflated columns are
appended. -/
def addPresentValueColumns (annual_inflation_rate : ℝ) (row : MergedRow) : DisplayRow :=
  ⟨row,
   row.asset_krw / inflationDivisor annual_inflation_rate row.year,
   row.savings_asset_krw / inflationDivisor annual_inflation_rate row.year⟩

/- ### Basic facts about the rate conversion -/

theorem monthlyRate_zero : monthlyRate 0 = 0 := by
  simp [monthlyRate, Real.one_rpow]

theorem monthlyRate_nonneg {r : ℝ} (hr : 0 ≤ r) : 0 ≤ monthlyRate r := by
  have h1 : (1 : ℝ) = (1 : ℝ) ^ ((1 : ℝ) / 12) := (Real.one_rpow _).symm
  have h2 : (1 : ℝ) ^ ((1 : ℝ) / 12) ≤ (1 + r / 100) ^ ((1 : ℝ) / 12) :=
    Real.rpow_le_rpow (by norm_num) (by linarith) (by norm_num)
  have : (1 : ℝ) ≤ (1 + r / 100) ^ ((1 : ℝ) / 12) := by
    calc (1 : ℝ) = (1 : ℝ) ^ ((1 : ℝ) / 12) := h1
    _ ≤ (1 + r / 100) ^ ((1 : ℝ) / 12) := h2
  simp only [monthlyRate]
  linarith

theorem monthlyRate_409500 : monthlyRate 409500 = 1 := by
  have h4096 : (1 : ℝ) + 409500 / 100 = (2 : ℝ) ^ (12 : ℕ) := by norm_num
  have h2 : ((2 : ℝ) ^ (12 : ℕ)) ^ ((1 : ℝ) / 12) = 2 := by
    rw [← Real.rpow_natCast 2 12, ← Real.rpow_mul (by norm_num)]
    norm_num
  simp only [monthlyRate, h4096, h2]
  norm_num

/- ### Characterizing the two folds -/

theorem invRun_foldl (inputs : SimulationInputs) (n : ℕ) :
    (List.range' 1 n).foldl
      (fun acc month =>
        let s := invMonthStep inputs acc.1
        if month % 12 = 0 then (s, acc.2 ++ [mkInvRecord inputs month s])
        else (s, acc.2))
      (invInitState inputs, ([] : List InvRecord))
    = (invStateAfter inputs n, invRecordsUpTo inputs n) := by
  induction n with
  | zero => rfl
  | succ m ih =>
      rw [List.range'_concat, List.foldl_append, ih]
      simp only [List.foldl_cons, List.foldl_nil]
      have hm : 1 + 1 * m = m + 1 := by omega
      rw [hm]
      by_cases h : (m + 1) % 12 = 0
      · simp only [invStateAfter, invRecordsUpTo, h, if_pos, ite_true]
      · simp only [invStateAfter, invRecordsUpTo, h, if_neg, ite_false,
          List.append_nil]

theorem run_investment_eq (inputs : SimulationInputs) :
    run_investment_simulation inputs = invRecordsUpTo inputs (totalMonths inputs) := by
  unfold run_investment_simulation
  rw [invRun_foldl]

theorem savRun_foldl (inputs : SimulationInputs) (n : ℕ) :
    (List.range' 1 n).foldl
      (fun acc month =>
        let s := savMonthUpdate inputs month acc.1
        if month % 12 = 0 then (s, acc.2 ++ [⟨month / 12, s.asset⟩])
        else (s, acc.2))
      ((⟨inputs.seed_money_krw, 0⟩ : SavState), ([] : List SavRecord))
    = (savStateAfter inputs n, savRecordsUpTo inputs n) := by
  induction n with
  | zero => rfl
  | succ m ih =>
      rw [List.range'_concat, List.foldl_append, ih]
      simp only [List.foldl_cons, List.foldl_nil]
      have hm : 1 + 1 * m = m + 1 := by omega
      rw [hm]
      by_cases h : (m + 1) % 12 = 0
      · simp only [savStateAfter, savRecordsUpTo, h, if_pos, ite_true]
      · simp only [savStateAfter, savRecordsUpTo, h, if_neg, ite_false,
          List.append_nil]

theorem run_savings_eq (inputs : SimulationInputs) :
    run_savings_simulation inputs = savRecordsUpTo inputs (totalMonths inputs) := by
  unfold run_savings_simulation
  rw [savRun_foldl]

theorem invRecordsUpTo_eq_map (inputs : SimulationInputs) (m : ℕ) :
    invRecordsUpTo inputs m =
      (List.range' 1 (m / 12)).map
        (fun y => mkInvRecord inputs (12 * y) (invStateAfter inputs (12 * y))) := by
  induction m with
  | zero => rfl
  | succ k ih =>
      by_cases h : (k + 1) % 12 = 0
      · have hdiv : (k + 1) / 12 = k / 12 + 1 := by omega
        have hmul : 12 * (1 + 1 * (k / 12)) = k + 1 := by omega
        rw [invRecordsUpTo, ih, if_pos h, hdiv, List.range'_concat, List.map_append]
        simp only [List.map_cons, List.map_nil, hmul]
      · have hdiv : (k + 1) / 12 = k / 12 := by omega
        rw [invRecordsUpTo, ih, if_neg h, hdiv, List.append_nil]

theorem savRecordsUpTo_eq_map (inputs : SimulationInputs) (m : ℕ) :
    savRecordsUpTo inputs m =
      (List.range' 1 (m / 12)).map
        (fun y => (⟨y, (savStateAfter inputs (12 * y)).asset⟩ : SavRecord)) := by
  induction m with
  | zero => rfl
  | succ k ih =>
      by_cases h : (k + 1) % 12 = 0
      · have hdiv : (k + 1) / 12 = k / 12 + 1 := by omega
        have hmul : 12 * (1 + 1 * (k / 12)) = k + 1 := by omega
        have hyr : 1 + 1 * (k / 12) = k / 12 + 1 := by omega
        have hm2 : 12 * (k / 12 + 1) = k + 1 := by omega
        rw [savRecordsUpTo, ih, if_pos h, hdiv, List.range'_concat, List.map_append]
        simp only [List.map_cons, List.map_nil, hmul, hyr, hm2]
      · have hdiv : (k + 1) / 12 = k / 12 := by omega
        rw [savRecordsUpTo, ih, if_neg h, hdiv, List.append_nil]

theorem totalMonths_div_12 (inputs : SimulationInputs) :
    totalMonths inputs / 12 = inputs.investment_years.toNat := by
  unfold totalMonths
  omega

theorem totalMonths_eq (inputs : SimulationInputs) :
    totalMonths inputs = 12 * inputs.investment_years.toNat := by
  unfold totalMonths
  omega

theorem run_investment_eq_map (inputs : SimulationInputs) :
    run_investment_simulation inputs =
      (List.range' 1 inputs.investment_years.toNat).map
        (fun y => mkInvRecord inputs (12 * y) (invStateAfter inputs (12 * y))) := by
  rw [run_investment_eq, invRecordsUpTo_eq_map, totalMonths_div_12]

theorem run_savings_eq_map (inputs : SimulationInputs) :
    run_savings_simulation inputs =
      (List.range' 1 inputs.investment_years.toNat).map
        (fun y => (⟨y, (savStateAfter inputs (12 * y)).asset⟩ : SavRecord)) := by
  rw [run_savings_eq, savRecordsUpTo_eq_map, totalMonths_div_12]

/- ### State invariants of the investment recurrence -/

theorem invState_fx (inputs : SimulationInputs) (m : ℕ) :
    (invStateAfter inputs m).current_exchange_rate =
      inputs.exchange_rate *
        (1 + monthlyRate inputs.annual_exchange_rate_change) ^ m := by
  induction m with
  | zero => simp [invStateAfter, invInitState]
  | succ k ih =>
      simp only [invStateAfter, invMonthStep, ih]
      ring

theorem invState_principal (inputs : SimulationInputs) (m : ℕ) :
    (invStateAfter inputs m).principal_usd =
      inputs.seed_money_krw / inputs.exchange_rate
        + m * (inputs.monthly_investment_krw / inputs.exchange_rate) := by
  induction m with
  | zero => simp [invStateAfter, invInitState]
  | succ k ih =>
      simp only [invStateAfter, invMonthStep, ih]
      push_cast
      ring

theorem invState_zero_rates (inputs : SimulationInputs)
    (hg : inputs.annual_price_growth_rate = 0)
    (hd : inputs.annual_dividend_yield = 0)
    (he : inputs.annual_expense_ratio = 0)
    (hx : inputs.annual_exchange_rate_change = 0) (m : ℕ) :
    invStateAfter inputs m =
      ⟨inputs.seed_money_krw / inputs.exchange_rate
         + m * (inputs.monthly_investment_krw / inputs.exchange_rate),
       inputs.seed_money_krw / inputs.exchange_rate
         + m * (inputs.monthly_investment_krw / inputs.exchange_rate),
       inputs.seed_money_krw / inputs.exchange_rate
         + m * (inputs.monthly_investment_krw / inputs.exchange_rate),
       0,
       inputs.exchange_rate⟩ := by
  induction m with
  | zero => simp [invStateAfter, invInitState]
  | succ k ih =>
      simp only [invStateAfter, invMonthStep, ih, hg, hd, he, hx, monthlyRate_zero]
      ext <;> push_cast <;> (try split_ifs) <;> ring

/- ### Claim C1 -/

/-- C1 counterexample: the deposit interest rate is NOT converted by the
compound-inversion formula.  `run_savings_simulation` uses
`savingsMonthlyRate` (simple division), and at the annual rate 12 this
differs from `monthlyRate 12 = 1.12^(1/12) - 1`. -/
theorem C1_counterexample : savingsMonthlyRate 12 ≠ monthlyRate 12 := by
  intro h
  have h1 : (1 + (12 : ℝ) / 100) ^ ((1 : ℝ) / 12) = 1 + 12 / 100 / 12 := by
    unfold savingsMonthlyRate monthlyRate at h
    linarith
  have h2 : ((1 + (12 : ℝ) / 100) ^ ((1 : ℝ) / 12)) ^ (12 : ℕ)
      = (1 + (12 : ℝ) / 100 / 12) ^ (12 : ℕ) := by rw [h1]
  rw [← Real.rpow_natCast ((1 + (12 : ℝ) / 100) ^ ((1 : ℝ) / 12)) 12,
      ← Real.rpow_mul (by norm_num : (0 : ℝ) ≤ 1 + 12 / 100)] at h2
  have h3 : ((1 : ℝ) / 12) * ((12 : ℕ) : ℝ) = 1 := by norm_num
  rw [h3, Real.rpow_one] at h2
  norm_num at h2

/-- C1 (amended): for every annual rate `r > -100` the monthly rate used by
the investment engine satisfies the compound-inversion contract
`(1 + m)^12 = 1 + r/100`; this conversion is applied to price growth,
dividend yield, expense ratio and exchange-rate drift, while the savings
deposit rate is converted by simple division `r / 100 / 12`. -/
theorem C1_rate_conversion (r : ℝ) (hr : -100 < r) :
    (1 + monthlyRate r) ^ (12 : ℕ) = 1 + r / 100 ∧
    savingsMonthlyRate r = r / 100 / 12 := by
  refine ⟨?_, rfl⟩
  have hb : (0 : ℝ) < 1 + r / 100 := by linarith
  have h1 : 1 + monthlyRate r = (1 + r / 100) ^ ((1 : ℝ) / 12) := by
    unfold monthlyRate
    ring
  rw [h1, ← Real.rpow_natCast ((1 + r / 100) ^ ((1 : ℝ) / 12)) 12,
      ← Real.rpow_mul hb.le]
  have h3 : ((1 : ℝ) / 12) * ((12 : ℕ) : ℝ) = 1 := by norm_num
  rw [h3, Real.rpow_one]

/-- C1 witness: the amended conversion contract at the concrete annual
rate 12. -/
theorem C1_witness :
    (-100 : ℝ) < 12 ∧
      ((1 + monthlyRate 12) ^ (12 : ℕ) = 1 + 12 / 100 ∧
       savingsMonthlyRate 12 = 12 / 100 / 12) :=
  ⟨by norm_num, C1_rate_conversion 12 (by norm_num)⟩

/- ### Claim C4 -/

/-- C4: in every month of the savings engine the interest
`balance * monthly_rate` is accrued on the balance before the fixed
contribution is added (the contribution earns no interest that month), and at
every year boundary (month ≡ 0 mod 12) the tax
`max 0 year_to_date_interest * savings_tax_rate` is subtracted from the
balance and the year-to-date interest is reset to 0. -/
theorem C4_savings_month_order (inputs : SimulationInputs) (m : ℕ) :
    savStateAfter inputs (m + 1) =
      (let s := savStateAfter inputs m
       let interest := s.asset * savingsMonthlyRate inputs.savings_interest_rate
       if (m + 1) % 12 = 0 then
         (⟨s.asset + interest + inputs.monthly_investment_krw
             - max 0 (s.interest_for_year + interest)
               * (inputs.savings_tax_rate / 100),
           0⟩ : SavState)
       else
         ⟨s.asset + interest + inputs.monthly_investment_krw,
          s.interest_for_year + interest⟩) := by
  simp only [savStateAfter, savMonthUpdate]

/- ### Claim C5 -/

/-- Modelled from the spec (§4.2 per-month step): the six update steps in the
spec's order — (1) price growth, (2) expense drag, (3) dividend on the
grown-and-expensed base with dividend tax applied every month, (4) monthly
contribution added to asset and cost basis, (5) reinvestment of the after-tax
dividend when enabled, (6) exchange-rate drift. -/
def specInvMonthStep (inputs : SimulationInputs) (s : InvState) : InvState :=
  let a1 := s.asset_usd * (1 + monthlyRate inputs.annual_price_growth_rate)
  let a2 := a1 * (1 - monthlyRate inputs.annual_expense_ratio)
  let dividend := a2 * monthlyRate inputs.annual_dividend_yield
  let dividend_after_tax := dividend * (1 - inputs.dividend_tax_rate / 100)
  let cum := s.cumulative_dividends_usd + dividend_after_tax
  let a3 := a2 + inputs.monthly_investment_krw / inputs.exchange_rate
  let cb3 := s.cost_basis_usd + inputs.monthly_investment_krw / inputs.exchange_rate
  let pr := s.principal_usd + inputs.monthly_investment_krw / inputs.exchange_rate
  let a4 := if inputs.reinvest_dividends then a3 + dividend_after_tax else a3
  let cb4 := if inputs.reinvest_dividends then cb3 + dividend_after_tax else cb3
  ⟨a4, pr, cb4, cum,
   s.current_exchange_rate * (1 + monthlyRate inputs.annual_exchange_rate_change)⟩

/-- C5: the month-end state produced by the engine's per-month body equals the
state produced by the spec's six steps in the spec's exact order (the engine
adds the reinvested dividend before the contribution, but the resulting
month-end state is identical). -/
theorem C5_month_update_order (inputs : SimulationInputs) (s : InvState) :
    invMonthStep inputs s = specInvMonthStep inputs s := by
  unfold invMonthStep specInvMonthStep
  cases hb : inputs.reinvest_dividends <;>
    simp only [hb, if_true, if_false, Bool.false_eq_true, Bool.true_eq_false] <;>
    ext <;> ring

/- ### Claim C8 -/

/-- C8: the present-value adjustment divides each year-`y` nominal value by
`(1 + annual_inflation_rate/100)^y` without mutating the nominal columns, and
with zero inflation the real values equal the nominal values. -/
theorem C8_present_value (annual_inflation_rate : ℝ) (row : MergedRow) :
    (addPresentValueColumns annual_inflation_rate row).toMergedRow = row ∧
    (addPresentValueColumns annual_inflation_rate row).asset_pv_krw =
      row.asset_krw / (1 + annual_inflation_rate / 100) ^ row.year ∧
    (addPresentValueColumns annual_inflation_rate row).savings_asset_pv_krw =
      row.savings_asset_krw / (1 + annual_inflation_rate / 100) ^ row.year ∧
    (addPresentValueColumns 0 row).asset_pv_krw = row.asset_krw ∧
    (addPresentValueColumns 0 row).savings_asset_pv_krw = row.savings_asset_krw := by
  refine ⟨rfl, rfl, rfl, ?_, ?_⟩
  all_goals norm_num [addPresentValueColumns, inflationDivisor]

/- ### Year-boundary record lemmas -/

theorem mkInvRecord_year (inputs : SimulationInputs) (month : ℕ) (s : InvState) :
    (mkInvRecord inputs month s).year = month / 12 := by
  unfold mkInvRecord
  split <;> rfl

theorem mkInvRecord_not_final (inputs : SimulationInputs) {month : ℕ} (s : InvState)
    (h : month ≠ totalMonths inputs) :
    mkInvRecord inputs month s =
      ⟨month / 12,
       s.principal_usd * s.current_exchange_rate,
       s.asset_usd * s.current_exchange_rate,
       s.asset_usd * s.current_exchange_rate,
       (s.asset_usd - s.cost_basis_usd) * s.current_exchange_rate,
       s.cumulative_dividends_usd * s.current_exchange_rate,
       0⟩ := by
  unfold mkInvRecord
  rw [if_neg h]

theorem mkInvRecord_final (inputs : SimulationInputs) {month : ℕ} (s : InvState)
    (h : month = totalMonths inputs) :
    mkInvRecord inputs month s =
      ⟨month / 12,
       s.principal_usd * s.current_exchange_rate,
       s.asset_usd * s.current_exchange_rate,
       (s.asset_usd -
          max 0 ((s.asset_usd - s.cost_basis_usd) * s.current_exchange_rate
                   - inputs.capital_gains_deduction_krw)
            * (inputs.capital_gains_tax_rate / 100) / s.current_exchange_rate)
         * s.current_exchange_rate,
       (s.asset_usd - s.cost_basis_usd -
          max 0 ((s.asset_usd - s.cost_basis_usd) * s.current_exchange_rate
                   - inputs.capital_gains_deduction_krw)
            * (inputs.capital_gains_tax_rate / 100) / s.current_exchange_rate)
         * s.current_exchange_rate,
       s.cumulative_dividends_usd * s.current_exchange_rate,
       s.asset_usd * s.current_exchange_rate * (inputs.annual_dividend_yield / 100)
         * (1 - inputs.dividend_tax_rate / 100)⟩ := by
  unfold mkInvRecord
  rw [if_pos h]

/- ### Claim C2 -/

/-- C2: the capital-gains tax is levied only in the final year: every emitted
record whose year index differs from `investment_years` has its post-tax asset
value equal to its pre-tax asset value (no gains-tax deduction); only the
final-year record can carry a nonzero deduction. -/
theorem C2_single_gains_tax_event (inputs : SimulationInputs) :
    ∀ r ∈ run_investment_simulation inputs,
      ((r.year : ℤ) ≠ inputs.investment_years) →
      r.asset_krw = r.pre_tax_asset_krw := by
  intro r hr hne
  rw [run_investment_eq_map] at hr
  rcases List.mem_map.1 hr with ⟨y, hy, hrec⟩
  rw [List.mem_range'_1] at hy
  subst hrec
  rw [mkInvRecord_year] at hne
  have hyne : 12 * y ≠ totalMonths inputs := by
    rw [totalMonths_eq]
    omega
  rw [mkInvRecord_not_final inputs _ hyne]

/- ### Claim C9 -/

/-- C9: with a nonpositive horizon both engines return the empty sequence (a
defined degenerate output, since both are total functions), and in general
each engine emits exactly `investment_years` records carrying the year
indices `1, 2, …, investment_years` in order. -/
theorem C9_degenerate_and_year_index (inputs : SimulationInputs) :
    (inputs.investment_years ≤ 0 →
      run_investment_simulation inputs = [] ∧
      run_savings_simulation inputs = []) ∧
    (run_investment_simulation inputs).map InvRecord.year
        = List.range' 1 inputs.investment_years.toNat ∧
    (run_savings_simulation inputs).map SavRecord.year
        = List.range' 1 inputs.investment_years.toNat := by
  have hinv : (run_investment_simulation inputs).map InvRecord.year
      = List.range' 1 inputs.investment_years.toNat := by
    rw [run_investment_eq_map, List.map_map]
    have hfun : (InvRecord.year ∘ fun y =>
        mkInvRecord inputs (12 * y) (invStateAfter inputs (12 * y))) = id := by
      funext y
      simp only [Function.comp_apply, mkInvRecord_year, id_eq]
      omega
    rw [hfun, List.map_id]
  have hsav : (run_savings_simulation inputs).map SavRecord.year
      = List.range' 1 inputs.investment_years.toNat := by
    rw [run_savings_eq_map, List.map_map]
    have hfun : (SavRecord.year ∘ fun y =>
        (⟨y, (savStateAfter inputs (12 * y)).asset⟩ : SavRecord)) = id := by
      funext y
      rfl
    rw [hfun, List.map_id]
  refine ⟨?_, hinv, hsav⟩
  intro hle
  have h0 : inputs.investment_years.toNat = 0 := by omega
  constructor
  · rw [run_investment_eq_map, h0]
    rfl
  · rw [run_savings_eq_map, h0]
    rfl

/-- A degenerate input with a negative horizon (no simulated months). -/
def cfgNeg : SimulationInputs :=
  ⟨0, -1, 0, 0, 0, 0, true, 0, 0, 0, 0, 1, 0, 0, 0⟩

/-- C9 witness: at a concrete negative horizon both engines produce the empty
sequence. -/
theorem C9_witness :
    cfgNeg.investment_years ≤ 0 ∧
      (run_investment_simulation cfgNeg = [] ∧
       run_savings_simulation cfgNeg = []) := by
  have hle : cfgNeg.investment_years ≤ 0 := by norm_num [cfgNeg]
  exact ⟨hle, (C9_degenerate_and_year_index cfgNeg).1 hle⟩

/- ### A concrete all-zero-rate configuration -/

/-- A two-year input with all rates zero, no contributions, no seed money and
unit exchange rate. -/
def cfg0 : SimulationInputs :=
  ⟨0, 2, 0, 0, 0, 0, true, 0, 0, 0, 0, 1, 0, 0, 0⟩

theorem cfg0_total : totalMonths cfg0 = 24 := by
  norm_num [totalMonths, cfg0]
  omega

theorem cfg0_state (m : ℕ) : invStateAfter cfg0 m = ⟨0, 0, 0, 0, 1⟩ := by
  rw [invState_zero_rates cfg0 rfl rfl rfl rfl m]
  ext <;> norm_num [cfg0]

theorem run_cfg0 :
    run_investment_simulation cfg0 =
      [⟨1, 0, 0, 0, 0, 0, 0⟩, ⟨2, 0, 0, 0, 0, 0, 0⟩] := by
  rw [run_investment_eq_map]
  have h2 : cfg0.investment_years.toNat = 2 := by
    norm_num [cfg0]
    omega
  rw [h2, show List.range' 1 2 = [1, 2] from rfl]
  simp only [List.map_cons, List.map_nil, cfg0_state,
    show (12 * 1 : ℕ) = 12 from rfl, show (12 * 2 : ℕ) = 24 from rfl]
  have hrec1 : mkInvRecord cfg0 12 ⟨0, 0, 0, 0, 1⟩ = ⟨1, 0, 0, 0, 0, 0, 0⟩ := by
    rw [mkInvRecord_not_final cfg0 _ (by rw [cfg0_total]; omega)]
    ext <;> norm_num
  have hrec2 : mkInvRecord cfg0 24 ⟨0, 0, 0, 0, 1⟩ = ⟨2, 0, 0, 0, 0, 0, 0⟩ := by
    rw [mkInvRecord_final cfg0 _ cfg0_total.symm]
    ext <;> norm_num [cfg0]
  rw [hrec1, hrec2]

/-- C2 witness: at the concrete configuration `cfg0` the year-1 record (not
the final year) carries no gains-tax deduction. -/
theorem C2_witness :
    (⟨1, 0, 0, 0, 0, 0, 0⟩ : InvRecord) ∈ run_investment_simulation cfg0 ∧
    (((⟨1, 0, 0, 0, 0, 0, 0⟩ : InvRecord).year : ℤ) ≠ cfg0.investment_years) ∧
    (⟨1, 0, 0, 0, 0, 0, 0⟩ : InvRecord).asset_krw
      = (⟨1, 0, 0, 0, 0, 0, 0⟩ : InvRecord).pre_tax_asset_krw := by
  have hmem : (⟨1, 0, 0, 0, 0, 0, 0⟩ : InvRecord) ∈ run_investment_simulation cfg0 := by
    rw [run_cfg0]
    exact List.mem_cons_self _ _
  have hne : (((⟨1, 0, 0, 0, 0, 0, 0⟩ : InvRecord).year : ℤ) ≠ cfg0.investment_years) := by
    norm_num [cfg0]
  exact ⟨hmem, hne, C2_single_gains_tax_event cfg0 _ hmem hne⟩

/- ### Claim C3 -/

/-- C3: at the horizon end the taxable gain is clamped to
`max 0 (capital_gains - allowance)`: whenever the final capital gains (in
KRW) are at most the allowance — in particular whenever they are negative —
the capital-gains tax paid is zero, so the final post-tax asset value equals
the pre-tax asset value and the reported gain is the untaxed gain. -/
theorem C3_allowance_clamp (inputs : SimulationInputs)
    (hle : ((invStateAfter inputs (totalMonths inputs)).asset_usd
              - (invStateAfter inputs (totalMonths inputs)).cost_basis_usd)
             * (invStateAfter inputs (totalMonths inputs)).current_exchange_rate
           ≤ inputs.capital_gains_deduction_krw) :
    ∀ r ∈ run_investment_simulation inputs,
      ((r.year : ℤ) = inputs.investment_years) →
      r.asset_krw = r.pre_tax_asset_krw ∧
      r.capital_gains_krw =
        ((invStateAfter inputs (totalMonths inputs)).asset_usd
           - (invStateAfter inputs (totalMonths inputs)).cost_basis_usd)
          * (invStateAfter inputs (totalMonths inputs)).current_exchange_rate := by
  intro r hr hyear
  rw [run_investment_eq_map] at hr
  rcases List.mem_map.1 hr with ⟨y, hy, hrec⟩
  rw [List.mem_range'_1] at hy
  subst hrec
  rw [mkInvRecord_year] at hyear
  have hy12 : 12 * y / 12 = y := by omega
  rw [hy12] at hyear
  have hfin : 12 * y = totalMonths inputs := by
    rw [totalMonths_eq]
    omega
  rw [hfin, mkInvRecord_final inputs _ rfl]
  have hmax : max 0 (((invStateAfter inputs (totalMonths inputs)).asset_usd
      - (invStateAfter inputs (totalMonths inputs)).cost_basis_usd)
      * (invStateAfter inputs (totalMonths inputs)).current_exchange_rate
      - inputs.capital_gains_deduction_krw) = 0 := by
    apply max_eq_left
    linarith
  refine ⟨?_, ?_⟩ <;> simp [hmax]

/-- C3 witness: at `cfg0` the final-year gains (zero) are at most the
allowance (zero), and the final record carries no gains-tax deduction. -/
theorem C3_witness :
    ((invStateAfter cfg0 (totalMonths cfg0)).asset_usd
        - (invStateAfter cfg0 (totalMonths cfg0)).cost_basis_usd)
       * (invStateAfter cfg0 (totalMonths cfg0)).current_exchange_rate
      ≤ cfg0.capital_gains_deduction_krw ∧
    (⟨2, 0, 0, 0, 0, 0, 0⟩ : InvRecord) ∈ run_investment_simulation cfg0 ∧
    (((⟨2, 0, 0, 0, 0, 0, 0⟩ : InvRecord).year : ℤ) = cfg0.investment_years) ∧
    ((⟨2, 0, 0, 0, 0, 0, 0⟩ : InvRecord).asset_krw
        = (⟨2, 0, 0, 0, 0, 0, 0⟩ : InvRecord).pre_tax_asset_krw ∧
     (⟨2, 0, 0, 0, 0, 0, 0⟩ : InvRecord).capital_gains_krw =
       ((invStateAfter cfg0 (totalMonths cfg0)).asset_usd
           - (invStateAfter cfg0 (totalMonths cfg0)).cost_basis_usd)
          * (invStateAfter cfg0 (totalMonths cfg0)).current_exchange_rate) := by
  have hle : ((invStateAfter cfg0 (totalMonths cfg0)).asset_usd
        - (invStateAfter cfg0 (totalMonths cfg0)).cost_basis_usd)
       * (invStateAfter cfg0 (totalMonths cfg0)).current_exchange_rate
      ≤ cfg0.capital_gains_deduction_krw := by
    rw [cfg0_state]
    norm_num [cfg0]
  have hmem : (⟨2, 0, 0, 0, 0, 0, 0⟩ : InvRecord) ∈ run_investment_simulation cfg0 := by
    rw [run_cfg0]
    simp
  have hyear : (((⟨2, 0, 0, 0, 0, 0, 0⟩ : InvRecord).year : ℤ) = cfg0.investment_years) := by
    norm_num [cfg0]
  exact ⟨hle, hmem, hyear, C3_allowance_clamp cfg0 hle _ hmem hyear⟩

/- ### Claim C6 -/

/-- A one-year input with zero growth/dividend/expense rates but a huge
exchange-rate drift (annual rate 409500% makes the monthly factor exactly 2),
unit contribution and unit initial exchange rate. -/
def cfg6 : SimulationInputs :=
  ⟨1, 1, 0, 0, 0, 0, false, 0, 0, 0, 0, 1, 409500, 0, 0⟩

theorem cfg6_total : totalMonths cfg6 = 12 := by
  norm_num [totalMonths, cfg6]
  omega

theorem cfg6_state (m : ℕ) :
    invStateAfter cfg6 m = ⟨(m : ℝ), (m : ℝ), (m : ℝ), 0, 2 ^ m⟩ := by
  induction m with
  | zero => ext <;> norm_num [invStateAfter, invInitState, cfg6]
  | succ k ih =>
      simp only [invStateAfter, invMonthStep, ih]
      ext <;> push_cast <;>
        norm_num [cfg6, monthlyRate_zero, monthlyRate_409500] <;> ring

theorem run_cfg6 :
    run_investment_simulation cfg6 = [⟨1, 49152, 49152, 49152, 0, 0, 0⟩] := by
  rw [run_investment_eq_map]
  have h1 : cfg6.investment_years.toNat = 1 := by
    norm_num [cfg6]
  rw [h1, show List.range' 1 1 = [1] from rfl]
  simp only [List.map_cons, List.map_nil, cfg6_state,
    show (12 * 1 : ℕ) = 12 from rfl]
  have hrec : mkInvRecord cfg6 12 ⟨((12 : ℕ) : ℝ), ((12 : ℕ) : ℝ), ((12 : ℕ) : ℝ), 0, 2 ^ (12 : ℕ)⟩
      = ⟨1, 49152, 49152, 49152, 0, 0, 0⟩ := by
    rw [mkInvRecord_final cfg6 _ cfg6_total.symm]
    ext <;> norm_num [cfg6]
  rw [hrec]

/-- C6 counterexample: with zero growth, dividend and expense rates but a
nonzero exchange-rate drift, the final record's cumulative contributions do
NOT equal `seed + contribution × 12 × years` — the reported principal is
rescaled by the drifted exchange rate (it is 49152 instead of 12 at `cfg6`). -/
theorem C6_counterexample :
    ¬ (∀ inputs : SimulationInputs,
        inputs.annual_price_growth_rate = 0 →
        inputs.annual_dividend_yield = 0 →
        inputs.annual_expense_ratio = 0 →
        ∀ r ∈ run_investment_simulation inputs,
          ((r.year : ℤ) = inputs.investment_years) →
          r.principal_krw = inputs.seed_money_krw
              + inputs.monthly_investment_krw * 12 * (inputs.investment_years : ℝ) ∧
          r.asset_krw = inputs.seed_money_krw
              + inputs.monthly_investment_krw * 12 * (inputs.investment_years : ℝ)) := by
  intro h
  have hmem : (⟨1, 49152, 49152, 49152, 0, 0, 0⟩ : InvRecord)
      ∈ run_investment_simulation cfg6 := by
    rw [run_cfg6]
    exact List.mem_cons_self _ _
  have hcl := (h cfg6 rfl rfl rfl _ hmem (by norm_num [cfg6])).1
  norm_num [cfg6] at hcl

/-- C6 (amended): with zero growth, dividend and expense rates AND zero
exchange-rate drift, a positive initial exchange rate and a nonnegative
capital-gains allowance, the final record's cumulative contributions equal
`seed_capital + monthly_contribution × 12 × horizon_years` and the post-tax
asset value equals that same figure. -/
theorem C6_zero_rate_reduction (inputs : SimulationInputs)
    (hg : inputs.annual_price_growth_rate = 0)
    (hd : inputs.annual_dividend_yield = 0)
    (he : inputs.annual_expense_ratio = 0)
    (hx : inputs.annual_exchange_rate_change = 0)
    (hE : 0 < inputs.exchange_rate)
    (hD : 0 ≤ inputs.capital_gains_deduction_krw) :
    ∀ r ∈ run_investment_simulation inputs,
      ((r.year : ℤ) = inputs.investment_years) →
      r.principal_krw = inputs.seed_money_krw
          + inputs.monthly_investment_krw * 12 * (inputs.investment_years : ℝ) ∧
      r.asset_krw = inputs.seed_money_krw
          + inputs.monthly_investment_krw * 12 * (inputs.investment_years : ℝ) := by
  intro r hr hyear
  rw [run_investment_eq_map] at hr
  rcases List.mem_map.1 hr with ⟨y, hy, hrec⟩
  rw [List.mem_range'_1] at hy
  subst hrec
  rw [mkInvRecord_year] at hyear
  have hy12 : 12 * y / 12 = y := by omega
  rw [hy12] at hyear
  have hfin : 12 * y = totalMonths inputs := by
    rw [totalMonths_eq]
    omega
  have hEne : inputs.exchange_rate ≠ 0 := ne_of_gt hE
  have hpos : 0 ≤ inputs.investment_years := by omega
  have hcast : ((totalMonths inputs : ℕ) : ℝ)
      = 12 * (inputs.investment_years : ℝ) := by
    rw [totalMonths_eq]
    have h1 : (inputs.investment_years.toNat : ℝ) = (inputs.investment_years : ℝ) := by
      rw [← Int.toNat_of_nonneg hpos]
      push_cast
      rw [Int.toNat_natCast]
    push_cast
    rw [h1]
  have hXE : (inputs.seed_money_krw / inputs.exchange_rate
        + ((totalMonths inputs : ℕ) : ℝ)
            * (inputs.monthly_investment_krw / inputs.exchange_rate))
        * inputs.exchange_rate
      = inputs.seed_money_krw
          + inputs.monthly_investment_krw * 12 * (inputs.investment_years : ℝ) := by
    field_simp
    rw [hcast]
    ring
  rw [hfin, invState_zero_rates inputs hg hd he hx, mkInvRecord_final inputs _ rfl]
  refine ⟨hXE, ?_⟩
  simp only [sub_self, zero_mul, zero_sub]
  rw [max_eq_left (neg_nonpos.mpr hD)]
  simpa using hXE

/-- C6 witness: the amended zero-rate reduction at the concrete zero-drift
configuration `cfg0`. -/
theorem C6_witness :
    (cfg0.annual_price_growth_rate = 0 ∧ cfg0.annual_dividend_yield = 0 ∧
     cfg0.annual_expense_ratio = 0 ∧ cfg0.annual_exchange_rate_change = 0 ∧
     0 < cfg0.exchange_rate ∧ 0 ≤ cfg0.capital_gains_deduction_krw ∧
     (⟨2, 0, 0, 0, 0, 0, 0⟩ : InvRecord) ∈ run_investment_simulation cfg0 ∧
     ((((⟨2, 0, 0, 0, 0, 0, 0⟩ : InvRecord).year : ℤ) = cfg0.investment_years))) ∧
    ((⟨2, 0, 0, 0, 0, 0, 0⟩ : InvRecord).principal_krw = cfg0.seed_money_krw
        + cfg0.monthly_investment_krw * 12 * (cfg0.investment_years : ℝ) ∧
     (⟨2, 0, 0, 0, 0, 0, 0⟩ : InvRecord).asset_krw = cfg0.seed_money_krw
        + cfg0.monthly_investment_krw * 12 * (cfg0.investment_years : ℝ)) := by
  have hmem : (⟨2, 0, 0, 0, 0, 0, 0⟩ : InvRecord) ∈ run_investment_simulation cfg0 := by
    rw [run_cfg0]
    simp
  have hyear : (((⟨2, 0, 0, 0, 0, 0, 0⟩ : InvRecord).year : ℤ) = cfg0.investment_years) := by
    norm_num [cfg0]
  refine ⟨⟨rfl, rfl, rfl, rfl, by norm_num [cfg0], by norm_num [cfg0], hmem, hyear⟩, ?_⟩
  exact C6_zero_rate_reduction cfg0 rfl rfl rfl rfl (by norm_num [cfg0])
    (by norm_num [cfg0]) _ hmem hyear

/- ### Claim C7 -/

theorem invAsset_nonneg (inputs : SimulationInputs)
    (hc : 0 ≤ inputs.monthly_investment_krw)
    (hseed : 0 ≤ inputs.seed_money_krw)
    (hE : 0 < inputs.exchange_rate)
    (hgr : 0 ≤ inputs.annual_price_growth_rate)
    (hdr : 0 ≤ inputs.annual_dividend_yield)
    (her : inputs.annual_expense_ratio = 0)
    (ht0 : 0 ≤ inputs.dividend_tax_rate)
    (ht1 : inputs.dividend_tax_rate ≤ 100) :
    ∀ m, 0 ≤ (invStateAfter inputs m).asset_usd := by
  have hg' : 0 ≤ monthlyRate inputs.annual_price_growth_rate := monthlyRate_nonneg hgr
  have hd' : 0 ≤ monthlyRate inputs.annual_dividend_yield := monthlyRate_nonneg hdr
  have hcu : 0 ≤ inputs.monthly_investment_krw / inputs.exchange_rate :=
    div_nonneg hc hE.le
  intro m
  induction m with
  | zero =>
      simp only [invStateAfter, invInitState]
      exact div_nonneg hseed hE.le
  | succ k ih =>
      simp only [invStateAfter, invMonthStep, her, monthlyRate_zero]
      have h1 : 0 ≤ (invStateAfter inputs k).asset_usd
          * (1 + monthlyRate inputs.annual_price_growth_rate) :=
        mul_nonneg ih (by linarith)
      have h2 : 0 ≤ (invStateAfter inputs k).asset_usd
          * (1 + monthlyRate inputs.annual_price_growth_rate)
          * monthlyRate inputs.annual_dividend_yield
          * (1 - inputs.dividend_tax_rate / 100) :=
        mul_nonneg (mul_nonneg h1 hd') (by linarith)
      split_ifs <;> nlinarith

/-- C7: with a nonnegative monthly contribution, nonnegative seed capital, a
positive exchange rate, nonnegative annual growth and dividend rates, zero
expense ratio (removing the periodic expense-deduction points) and a dividend
tax rate between 0 and 100, the asset value carried by the investment engine
is non-decreasing month over month; the only remaining deduction (the final
gains tax) affects the reported record, not the carried asset state. -/
theorem C7_asset_monotone (inputs : SimulationInputs)
    (hc : 0 ≤ inputs.monthly_investment_krw)
    (hseed : 0 ≤ inputs.seed_money_krw)
    (hE : 0 < inputs.exchange_rate)
    (hgr : 0 ≤ inputs.annual_price_growth_rate)
    (hdr : 0 ≤ inputs.annual_dividend_yield)
    (her : inputs.annual_expense_ratio = 0)
    (ht0 : 0 ≤ inputs.dividend_tax_rate)
    (ht1 : inputs.dividend_tax_rate ≤ 100) :
    ∀ m, (invStateAfter inputs m).asset_usd ≤ (invStateAfter inputs (m + 1)).asset_usd := by
  intro m
  have ha := invAsset_nonneg inputs hc hseed hE hgr hdr her ht0 ht1 m
  have hg' : 0 ≤ monthlyRate inputs.annual_price_growth_rate := monthlyRate_nonneg hgr
  have hd' : 0 ≤ monthlyRate inputs.annual_dividend_yield := monthlyRate_nonneg hdr
  have hcu : 0 ≤ inputs.monthly_investment_krw / inputs.exchange_rate :=
    div_nonneg hc hE.le
  have h1 : 0 ≤ (invStateAfter inputs m).asset_usd
      * monthlyRate inputs.annual_price_growth_rate := mul_nonneg ha hg'
  have h2 : 0 ≤ (invStateAfter inputs m).asset_usd
      * (1 + monthlyRate inputs.annual_price_growth_rate)
      * monthlyRate inputs.annual_dividend_yield
      * (1 - inputs.dividend_tax_rate / 100) :=
    mul_nonneg (mul_nonneg (mul_nonneg ha (by linarith)) hd') (by linarith)
  conv_rhs => rw [invStateAfter]
  simp only [invMonthStep, her, monthlyRate_zero]
  split_ifs <;> nlinarith

/-- An input with the default market assumptions (growth 7%, dividend 3.5%,
dividend tax 15%) but zero expense ratio, used to instantiate the
monotonicity theorem. -/
def cfgM : SimulationInputs :=
  ⟨500000, 20, 0, 0, 7, 7 / 2, true, 0, 15, 22, 2500000, 1380, 0, 7 / 2, 77 / 5⟩

/-- C7 witness: the monotonicity hypotheses hold at `cfgM`, and the asset
value does not decrease across the first month. -/
theorem C7_witness :
    (0 ≤ cfgM.monthly_investment_krw ∧ 0 ≤ cfgM.seed_money_krw ∧
     0 < cfgM.exchange_rate ∧ 0 ≤ cfgM.annual_price_growth_rate ∧
     0 ≤ cfgM.annual_dividend_yield ∧ cfgM.annual_expense_ratio = 0 ∧
     0 ≤ cfgM.dividend_tax_rate ∧ cfgM.dividend_tax_rate ≤ 100) ∧
    (invStateAfter cfgM 0).asset_usd ≤ (invStateAfter cfgM 1).asset_usd := by
  refine ⟨⟨by norm_num [cfgM], by norm_num [cfgM], by norm_num [cfgM],
           by norm_num [cfgM], by norm_num [cfgM], rfl,
           by norm_num [cfgM], by norm_num [cfgM]⟩, ?_⟩
  exact C7_asset_monotone cfgM (by norm_num [cfgM]) (by norm_num [cfgM])
    (by norm_num [cfgM]) (by norm_num [cfgM]) (by norm_num [cfgM]) rfl
    (by norm_num [cfgM]) (by norm_num [cfgM]) 0

/- ### Claim C10 -/

/-- C10: contributions are converted to USD at the initial exchange rate and
reported back at the drifted current rate, so each record's reported
cumulative contributions equal
`(seed + contribution × 12 × year) × (exchange_rate_at_year / initial_rate)`;
in particular the reported principal equals the KRW amounts actually
contributed when the exchange-rate drift is zero, and under nonzero drift the
reported principal is rescaled by the accumulated drift factor. -/
theorem C10_principal_rescaling (inputs : SimulationInputs)
    (hE : 0 < inputs.exchange_rate) :
    ∀ r ∈ run_investment_simulation inputs,
      r.principal_krw =
        (inputs.seed_money_krw + inputs.monthly_investment_krw * 12 * (r.year : ℝ)) *
          ((inputs.exchange_rate
              * (1 + monthlyRate inputs.annual_exchange_rate_change) ^ (12 * r.year))
            / inputs.exchange_rate) ∧
      (inputs.annual_exchange_rate_change = 0 →
        r.principal_krw =
          inputs.seed_money_krw + inputs.monthly_investment_krw * 12 * (r.year : ℝ)) := by
  intro r hr
  rw [run_investment_eq_map] at hr
  rcases List.mem_map.1 hr with ⟨y, hy, hrec⟩
  subst hrec
  have hprin : (mkInvRecord inputs (12 * y) (invStateAfter inputs (12 * y))).principal_krw
      = (invStateAfter inputs (12 * y)).principal_usd
        * (invStateAfter inputs (12 * y)).current_exchange_rate := by
    unfold mkInvRecord
    split <;> rfl
  have hy12 : 12 * y / 12 = y := by omega
  rw [hprin, mkInvRecord_year, invState_principal, invState_fx, hy12]
  have hEne : inputs.exchange_rate ≠ 0 := ne_of_gt hE
  constructor
  · field_simp
    ring
  · intro hx0
    rw [hx0, monthlyRate_zero]
    field_simp
    ring

/-- C10 witness: the rescaling identity at the zero-drift configuration
`cfg0` and its year-1 record. -/
theorem C10_witness :
    0 < cfg0.exchange_rate ∧
    (⟨1, 0, 0, 0, 0, 0, 0⟩ : InvRecord) ∈ run_investment_simulation cfg0 ∧
    ((⟨1, 0, 0, 0, 0, 0, 0⟩ : InvRecord).principal_krw =
        (cfg0.seed_money_krw + cfg0.monthly_investment_krw * 12
            * (((⟨1, 0, 0, 0, 0, 0, 0⟩ : InvRecord).year : ℕ) : ℝ)) *
          ((cfg0.exchange_rate
              * (1 + monthlyRate cfg0.annual_exchange_rate_change)
                  ^ (12 * (⟨1, 0, 0, 0, 0, 0, 0⟩ : InvRecord).year))
            / cfg0.exchange_rate) ∧
     (cfg0.annual_exchange_rate_change = 0 →
        (⟨1, 0, 0, 0, 0, 0, 0⟩ : InvRecord).principal_krw =
          cfg0.seed_money_krw + cfg0.monthly_investment_krw * 12
            * (((⟨1, 0, 0, 0, 0, 0, 0⟩ : InvRecord).year : ℕ) : ℝ))) := by
  have hE : 0 < cfg0.exchange_rate := by norm_num [cfg0]
  have hmem : (⟨1, 0, 0, 0, 0, 0, 0⟩ : InvRecord) ∈ run_investment_simulation cfg0 := by
    rw [run_cfg0]
    exact List.mem_cons_self _ _
  exact ⟨hE, hmem, C10_principal_rescaling cfg0 hE _ hmem⟩
